import Mathlib

/-!
# Verification of the ZenRows amazon-scraper field extractors

Shallow embedding of the two scraper scripts
(`amazon_scraper_requests_beautifulsoup.py` and `amazon_scraper_playwright.py`)
and proofs of the specification's testable properties about them.

Python-level primitives (`str.strip`, `str.lower`, `str.startswith`,
substring membership, the three regular expressions used by the scripts)
are modelled character-by-character.  Each regular expression used by the
source is simple enough that Python's leftmost-then-greedy backtracking
search is deterministic; the models implement that deterministic form and
the accompanying comments justify the determinism.
-/

/-! ## Python string primitives -/

/-- Python's ASCII whitespace class (the characters `str.strip()` and `\s`
remove/match for ASCII text): space, tab, newline, carriage return,
vertical tab, form feed. -/
def isPySpace (c : Char) : Bool :=
  c = ' ' || c = '\t' || c = '\n' || c = '\r' || c = '\x0b' || c = '\x0c'

/-- `str.strip()` on a character list: drop leading and trailing whitespace. -/
def pyStripList (l : List Char) : List Char :=
  ((l.dropWhile isPySpace).reverse.dropWhile isPySpace).reverse

/-- Models Python `s.strip()`. -/
def pyStrip (s : String) : String := ⟨pyStripList s.data⟩

/-- Models Python `s.lower()` (ASCII case folding, which is all the
keyword comparison in the source needs). -/
def pyLower (s : String) : String := ⟨s.data.map Char.toLower⟩

/-- Models Python `s.startswith(pre)`. -/
def pyStartsWith (s pre : String) : Bool := pre.data.isPrefixOf s.data

/-- Substring test on character lists: does `needle` occur contiguously in
`hay`?  Models Python's `needle in hay`. -/
def hasSub (needle : List Char) : List Char → Bool
  | [] => needle.isEmpty
  | c :: rest => needle.isPrefixOf (c :: rest) || hasSub needle rest

/-- Models Python `needle in hay` for strings. -/
def strContains (hay needle : String) : Bool := hasSub needle.data hay.data

/-- Models Python `s.replace(",", "")`: a single-character pattern replace
removes every comma. -/
def removeCommas (s : String) : String := ⟨s.data.filter (fun c => c ≠ ',')⟩

/-- Models Python `sep.join(parts)`. -/
def pyJoin (sep : String) : List String → String
  | [] => ""
  | [x] => x
  | x :: xs => x ++ sep ++ pyJoin sep xs

/-! ## The regular expressions used by the scrapers

`re.search(r"(\d+\.?\d*)\s*out of", text)` (average rating),
`re.search(r"([\d,]+)", text)` (review count), and
`re.sub(r"\._[A-Z]+\d+_\.", "._AC_SL1500_.", url)` (thumbnail rewrite).

For each of these patterns backtracking is vacuous: whenever a greedy
sub-match is given back, the character it exposes can satisfy neither the
following sub-pattern nor the following literal, so the first (maximal)
attempt is the only one that can succeed.  Each model therefore consumes
maximal runs and checks the following literal, scanning start positions
left to right exactly as `re.search`/`re.sub` do. -/

/-- A character of the class `[\d,]`. -/
def isDigitComma (c : Char) : Bool := c.isDigit || c = ','

/-- `re.search(r"([\d,]+)", text)`: the leftmost maximal run of digits and
commas, or `none` when the text has no digit and no comma. -/
def reSearchDigitGroup : List Char → Option (List Char)
  | [] => none
  | c :: rest =>
    if isDigitComma c then some ((c :: rest).takeWhile isDigitComma)
    else reSearchDigitGroup rest

/-- The `\d*\s*out of` tail of the rating pattern applied to `r2`, with
`d1`/`dot` the parts of the capture already consumed: `\d*` and `\s*`
take maximal runs (a given-back digit or space cannot start the literal
`out of`), then the literal must follow; the capture is
`d1 ++ dot ++ d2`. -/
def ratingTail (d1 dot r2 : List Char) : Option (List Char) :=
  let d2 := r2.takeWhile Char.isDigit
  let r3 := r2.drop d2.length
  let r4 := r3.dropWhile isPySpace
  if "out of".data.isPrefixOf r4 then some (d1 ++ dot ++ d2) else none

/-- Attempt to match `(\d+\.?\d*)\s*out of` at the head of `cs`,
returning the captured group.  `\d+` takes the nonempty maximal digit run
(giving a digit back would make `\.?` face a digit and fail), `\.?` takes
a dot exactly when present (skipping a present dot leaves the rest of the
pattern facing the dot, which fails), then `ratingTail` finishes the
pattern. -/
def ratingMatchAt (cs : List Char) : Option (List Char) :=
  let d1 := cs.takeWhile Char.isDigit
  if d1.isEmpty then none
  else
    match cs.drop d1.length with
    | '.' :: t => ratingTail d1 ['.'] t
    | r1 => ratingTail d1 [] r1

/-- `re.search(r"(\d+\.?\d*)\s*out of", text)`: scan start positions left
to right, return the first successful capture. -/
def reSearchRating : List Char → Option (List Char)
  | [] => none
  | c :: rest =>
    match ratingMatchAt (c :: rest) with
    | some g => some g
    | none => reSearchRating rest

/-- A character of the class `[A-Z]`. -/
def isUpperAZ (c : Char) : Bool := 'A' ≤ c && c ≤ 'Z'

/-- Body of the size-token pattern after the leading `._`:
`[A-Z]+\d+_\.` with maximal runs (backtracking is vacuous: a given-back
uppercase letter cannot be a digit and a given-back digit cannot be `_`).
Returns the total match length including the leading `._`. -/
def tokenBody (rest : List Char) : Option Nat :=
  let us := rest.takeWhile isUpperAZ
  if us.isEmpty then none
  else
    let r2 := rest.drop us.length
    let ds := r2.takeWhile Char.isDigit
    if ds.isEmpty then none
    else
      match r2.drop ds.length with
      | c3 :: c4 :: _ => if c3 = '_' && c4 = '.' then some (4 + us.length + ds.length) else none
      | _ => none

/-- Attempt to match `\._[A-Z]+\d+_\.` at the head of `cs`, returning the
length of the matched token. -/
def tokenMatchLen (cs : List Char) : Option Nat :=
  match cs with
  | c :: rest =>
    if c = '.' then
      match rest with
      | c2 :: rest2 => if c2 = '_' then tokenBody rest2 else none
      | [] => none
    else none
  | [] => none

/-- `re.sub(r"\._[A-Z]+\d+_\.", "._AC_SL1500_.", s)` on character lists:
scan left to right; on a match, emit the replacement and continue after the
matched token (non-overlapping), otherwise keep the character.  A match at
`c :: rest` has length `n ≥ 6`, so continuing after it is
`rest.drop (n - 1)`, which is what the recursion uses. -/
def pysubAux : List Char → List Char
  | [] => []
  | c :: rest =>
    match tokenMatchLen (c :: rest) with
    | some n => "._AC_SL1500_.".data ++ pysubAux (rest.drop (n - 1))
    | none => c :: pysubAux rest
termination_by cs => cs.length
decreasing_by
  · simp only [List.length_drop, List.length_cons]
    omega
  · simp

/-- The thumbnail-URL rewrite `re.sub(r"\._[A-Z]+\d+_\.", "._AC_SL1500_.", url)`. -/
def pysubLarge (s : String) : String := ⟨pysubAux s.data⟩

/-! ## Shared configuration (identical in both scraper scripts) -/

/-- The hardcoded `TARGET_URL`. -/
def TARGET_URL : String :=
  "https://www.amazon.com/Logitech-Master-Bluetooth-Wireless-Receiver/dp/B0FB21526X"

/-- The `SELECTORS` dict: field name to CSS selector. -/
def SELECTORS (key : String) : String :=
  if key = "title" then "#productTitle"
  else if key = "price" then "span.a-price span.a-offscreen"
  else if key = "avg_rating" then "span.a-icon-alt"
  else if key = "review_count" then "#acrCustomerReviewText"
  else if key = "availability" then "#availability span"
  else if key = "description" then "#productDescription p"
  else if key = "features" then "#feature-bullets ul li span.a-list-item"
  else if key = "images" then "#imgTagWrapperId img"
  else if key = "category" then "#wayfinding-breadcrumbs_feature_div ul li a"
  else if key = "ships_from" then "#tabular-buybox-truncate-0 span.tabular-buybox-text"
  else if key = "sold_by" then "#tabular-buybox-truncate-1 span.tabular-buybox-text"
  else ""

/-- The out-of-stock keyword list from `extract_out_of_stock`. -/
def out_of_stock_keywords : List String :=
  ["out of stock", "unavailable", "currently unavailable"]

/-- The output record (`product_data` dict): thirteen keys, in source order.
Optional scalar fields are `Option String` (Python `None` = `none`). -/
structure ProductData where
  title : Option String
  price : Option String
  avg_rating : Option String
  review_count : Option String
  availability : Option String
  out_of_stock : Bool
  description : Option String
  features : List String
  images : List String
  category : Option String
  ships_from : Option String
  sold_by : Option String
  url : String
deriving Repr, DecidableEq

/-! ## The BeautifulSoup variant (`amazon_scraper_requests_beautifulsoup.py`)

A parsed document is modelled as its CSS-query behaviour: `sel` maps a
selector string to the matched elements in document order.  An element
(`Tag`) carries the text that `get_text(strip=True)` would normalize (the
concatenated raw text, before stripping) and its attribute list. -/

/-- A BeautifulSoup element. -/
structure Tag where
  text : String
  attrs : List (String × String)
deriving Repr, DecidableEq

/-- Models bs4 `tag.get(name)`: the attribute value or `None`. -/
def Tag.get (tag : Tag) (name : String) : Option String :=
  (tag.attrs.find? (fun p => p.1 = name)).map (fun p => p.2)

/-- Models `get_text(strip=True)`. -/
def Tag.get_text_strip (tag : Tag) : String := pyStrip tag.text

/-- A parsed document, queryable by CSS selector (`soup.select`). -/
structure Soup where
  sel : String → List Tag

/-- Models `soup.select_one(selector)`: first match or `None`. -/
def select_one (soup : Soup) (selector : String) : Option Tag :=
  (soup.sel selector).head?

/-- Python truthiness of an `Optional[str]`: not `None` and not `""`. -/
def pyTruthyStr : Option String → Bool
  | some s => s ≠ ""
  | none => false

/-- Python `a or b` on two `Optional[str]` values. -/
def pyOrStr (a b : Option String) : Option String :=
  match a with
  | some s => if s ≠ "" then some s else b
  | none => b

namespace BS4

/-- `extract_title`. -/
def extract_title (soup : Soup) : Option String :=
  match select_one soup (SELECTORS "title") with
  | some element => some element.get_text_strip
  | none => none

/-- `extract_price`. -/
def extract_price (soup : Soup) : Option String :=
  match select_one soup (SELECTORS "price") with
  | some element => some element.get_text_strip
  | none => none

/-- `extract_avg_rating`. -/
def extract_avg_rating (soup : Soup) : Option String :=
  match select_one soup (SELECTORS "avg_rating") with
  | some element =>
    match reSearchRating element.get_text_strip.data with
    | some g => some ⟨g⟩
    | none => none
  | none => none

/-- `extract_review_count`. -/
def extract_review_count (soup : Soup) : Option String :=
  match select_one soup (SELECTORS "review_count") with
  | some element =>
    match reSearchDigitGroup element.get_text_strip.data with
    | some g => some (removeCommas ⟨g⟩)
    | none => none
  | none => none

/-- `extract_availability`. -/
def extract_availability (soup : Soup) : Option String :=
  match select_one soup (SELECTORS "availability") with
  | some element => some element.get_text_strip
  | none => none

/-- `extract_out_of_stock`.  Python's `if availability:` is truthiness:
`None` and `""` both skip the keyword scan. -/
def extract_out_of_stock (soup : Soup) : Bool :=
  match extract_availability soup with
  | some availability =>
    if availability ≠ "" then
      out_of_stock_keywords.any (fun keyword => strContains (pyLower availability) keyword)
    else false
  | none => false

/-- `extract_description`. -/
def extract_description (soup : Soup) : Option String :=
  match select_one soup (SELECTORS "description") with
  | some element => some element.get_text_strip
  | none => none

/-- `extract_features`: loop over all matches, keeping texts that are
non-empty and longer than 5 characters. -/
def extract_features (soup : Soup) : List String :=
  let elements := soup.sel (SELECTORS "features")
  elements.foldl
    (fun features element =>
      let text := element.get_text_strip
      if text ≠ "" && text.length > 5 then features ++ [text] else features)
    []

/-- The thumbnail loop of `extract_images`: for each thumb take `src`,
keep truthy values starting with `"http"`, rewrite the size token, and
append when not already present. -/
def thumbLoop : List Tag → List String → List String
  | [], images => images
  | thumb :: rest, images =>
    match Tag.get thumb "src" with
    | some img_url =>
      if img_url ≠ "" && pyStartsWith img_url "http" then
        let large_url := pysubLarge img_url
        if images.contains large_url then thumbLoop rest images
        else thumbLoop rest (images ++ [large_url])
      else thumbLoop rest images
    | none => thumbLoop rest images

/-- `extract_images`: main image first (`data-old-hires` or `src`), then
the thumbnail strip. -/
def extract_images (soup : Soup) : List String :=
  let images : List String := []
  let images :=
    match select_one soup (SELECTORS "images") with
    | some main_img =>
      match pyOrStr (main_img.get "data-old-hires") (main_img.get "src") with
      | some img_url =>
        if img_url ≠ "" && pyStartsWith img_url "http" then images ++ [img_url] else images
      | none => images
    | none => images
  thumbLoop (soup.sel "#altImages img.a-dynamic-image") images

/-- `extract_category`: join the breadcrumb texts with `" > "`; `None`
when no breadcrumb element matches. -/
def extract_category (soup : Soup) : Option String :=
  let elements := soup.sel (SELECTORS "category")
  if elements.isEmpty then none
  else some (pyJoin " > " (elements.map (fun el => el.get_text_strip)))

/-- `extract_ships_from`. -/
def extract_ships_from (soup : Soup) : Option String :=
  match select_one soup (SELECTORS "ships_from") with
  | some element => some element.get_text_strip
  | none => none

/-- `extract_sold_by`. -/
def extract_sold_by (soup : Soup) : Option String :=
  match select_one soup (SELECTORS "sold_by") with
  | some element => some element.get_text_strip
  | none => none

/-- The `product_data` record built by `scrape_amazon_product` once a
document is available. -/
def product_data_of (soup : Soup) (url : String) : ProductData where
  title := extract_title soup
  price := extract_price soup
  avg_rating := extract_avg_rating soup
  review_count := extract_review_count soup
  availability := extract_availability soup
  out_of_stock := extract_out_of_stock soup
  description := extract_description soup
  features := extract_features soup
  images := extract_images soup
  category := extract_category soup
  ships_from := extract_ships_from soup
  sold_by := extract_sold_by soup
  url := url

/-- Outcome of the `requests.get` + `raise_for_status` call in
`fetch_page`, abstracting the network: either one of the caught exception
classes or a parsed document. -/
inductive FetchResult where
  | timeout
  | connectionError
  | httpError (msg : String)
  | requestException (msg : String)
  | success (soup : Soup)

/-- `fetch_page`: the parsed document on success, else `None` plus the
stderr line printed by the matching `except` branch. -/
def fetch_page : FetchResult → Option Soup × List String
  | .success soup => (some soup, [])
  | .timeout => (none, ["error: request timed out"])
  | .connectionError => (none, ["error: failed to connect to the server"])
  | .httpError e => (none, ["error: http error occurred - " ++ e])
  | .requestException e => (none, ["error: request failed - " ++ e])

/-- `scrape_amazon_product`: fetch, short-circuit on failure, else build
the record. -/
def scrape_amazon_product (fr : FetchResult) (url : String) :
    Option ProductData × List String :=
  match fetch_page fr with
  | (none, errs) => (none, errs)
  | (some soup, errs) => (some (product_data_of soup url), errs)

/-- Observable outcome of one run of `main`. -/
structure MainOutcome where
  record : Option ProductData
  stderrLines : List String
  exitCode : Nat
deriving Repr

/-- `main`: scrape `TARGET_URL`; print the record and exit 0 on success,
else print `failed to scrape product data` to stderr and `sys.exit(1)`. -/
def main_run (fr : FetchResult) : MainOutcome :=
  match scrape_amazon_product fr TARGET_URL with
  | (some d, errs) => ⟨some d, errs, 0⟩
  | (none, errs) => ⟨none, errs ++ ["failed to scrape product data"], 1⟩

end BS4

/-! ## The Playwright variant (`amazon_scraper_playwright.py`)

Here every backend call (`query_selector`, `query_selector_all`,
`inner_text`, `get_attribute`) can raise; each extractor wraps its body in
`try: ... except Exception: pass` and falls back to `None`/the list built
so far.  A raising call is modelled as `Except.error ()`. -/

/-- A Playwright element handle. -/
structure PElem where
  innerText : Except Unit String
  getAttribute : String → Except Unit (Option String)

/-- A Playwright page handle, queryable by CSS selector.  `query_selector`
returns the first match or `None`; `query_selector_all` returns all
matches in document order; either can raise. -/
structure PPage where
  query_selector : String → Except Unit (Option PElem)
  query_selector_all : String → Except Unit (List PElem)

namespace PW

/-- `extract_title`: `try` the query and `inner_text().strip()`; any raise
is swallowed and yields `None`. -/
def extract_title (page : PPage) : Option String :=
  match page.query_selector (SELECTORS "title") with
  | .error _ => none
  | .ok none => none
  | .ok (some element) =>
    match element.innerText with
    | .error _ => none
    | .ok t => some (pyStrip t)

/-- `extract_price`. -/
def extract_price (page : PPage) : Option String :=
  match page.query_selector (SELECTORS "price") with
  | .error _ => none
  | .ok none => none
  | .ok (some element) =>
    match element.innerText with
    | .error _ => none
    | .ok t => some (pyStrip t)

/-- `extract_avg_rating`. -/
def extract_avg_rating (page : PPage) : Option String :=
  match page.query_selector (SELECTORS "avg_rating") with
  | .error _ => none
  | .ok none => none
  | .ok (some element) =>
    match element.innerText with
    | .error _ => none
    | .ok t =>
      match reSearchRating (pyStrip t).data with
      | some g => some ⟨g⟩
      | none => none

/-- `extract_review_count`. -/
def extract_review_count (page : PPage) : Option String :=
  match page.query_selector (SELECTORS "review_count") with
  | .error _ => none
  | .ok none => none
  | .ok (some element) =>
    match element.innerText with
    | .error _ => none
    | .ok t =>
      match reSearchDigitGroup (pyStrip t).data with
      | some g => some (removeCommas ⟨g⟩)
      | none => none

/-- `extract_availability`. -/
def extract_availability (page : PPage) : Option String :=
  match page.query_selector (SELECTORS "availability") with
  | .error _ => none
  | .ok none => none
  | .ok (some element) =>
    match element.innerText with
    | .error _ => none
    | .ok t => some (pyStrip t)

/-- `extract_out_of_stock` (same body as the BeautifulSoup variant). -/
def extract_out_of_stock (page : PPage) : Bool :=
  match extract_availability page with
  | some availability =>
    if availability ≠ "" then
      out_of_stock_keywords.any (fun keyword => strContains (pyLower availability) keyword)
    else false
  | none => false

/-- `extract_description`. -/
def extract_description (page : PPage) : Option String :=
  match page.query_selector (SELECTORS "description") with
  | .error _ => none
  | .ok none => none
  | .ok (some element) =>
    match element.innerText with
    | .error _ => none
    | .ok t => some (pyStrip t)

/-- The `for` loop of `extract_features`.  `features` is mutated in place,
so a raise from `inner_text` mid-loop returns the elements accumulated so
far. -/
def featLoop : List PElem → List String → List String
  | [], features => features
  | element :: rest, features =>
    match element.innerText with
    | .error _ => features
    | .ok t =>
      let text := pyStrip t
      if text ≠ "" && text.length > 5 then featLoop rest (features ++ [text])
      else featLoop rest features

/-- `extract_features`. -/
def extract_features (page : PPage) : List String :=
  match page.query_selector_all (SELECTORS "features") with
  | .error _ => []
  | .ok elements => featLoop elements []

/-- The thumbnail loop of `extract_images`; as with features, a raise
mid-loop returns the images accumulated so far. -/
def pwThumbLoop : List PElem → List String → List String
  | [], images => images
  | thumb :: rest, images =>
    match thumb.getAttribute "src" with
    | .error _ => images
    | .ok img_url =>
      match img_url with
      | some u =>
        if u ≠ "" && pyStartsWith u "http" then
          let large_url := pysubLarge u
          if images.contains large_url then pwThumbLoop rest images
          else pwThumbLoop rest (images ++ [large_url])
        else pwThumbLoop rest images
      | none => pwThumbLoop rest images

/-- `extract_images`: the main-image stage (where a raise aborts before
the thumbnails run) followed by the thumbnail stage.  Python's
`get_attribute("data-old-hires") or get_attribute("src")` evaluates the
second call only when the first value is falsy. -/
def extract_images (page : PPage) : List String :=
  match page.query_selector (SELECTORS "images") with
  | .error _ => []
  | .ok mainRes =>
    let afterMain : Except Unit (List String) :=
      match mainRes with
      | none => .ok []
      | some main_img =>
        match main_img.getAttribute "data-old-hires" with
        | .error e => .error e
        | .ok a =>
          let second : Except Unit (Option String) :=
            if pyTruthyStr a then .ok a else main_img.getAttribute "src"
          match second with
          | .error e => .error e
          | .ok img_url =>
            match img_url with
            | some u =>
              .ok (if u ≠ "" && pyStartsWith u "http" then [u] else [])
            | none => .ok []
    match afterMain with
    | .error _ => []
    | .ok images =>
      match page.query_selector_all "#altImages img.a-dynamic-image" with
      | .error _ => images
      | .ok thumbs => pwThumbLoop thumbs images

/-- The list comprehension of `extract_category`: strip every element's
inner text, propagating a raise. -/
def collectTexts : List PElem → Except Unit (List String)
  | [] => .ok []
  | e :: es =>
    match e.innerText with
    | .error u => .error u
    | .ok t =>
      match collectTexts es with
      | .error u => .error u
      | .ok ts => .ok (pyStrip t :: ts)

/-- `extract_category`. -/
def extract_category (page : PPage) : Option String :=
  match page.query_selector_all (SELECTORS "category") with
  | .error _ => none
  | .ok elements =>
    if elements.isEmpty then none
    else
      match collectTexts elements with
      | .error _ => none
      | .ok categories => some (pyJoin " > " categories)

/-- `extract_ships_from`. -/
def extract_ships_from (page : PPage) : Option String :=
  match page.query_selector (SELECTORS "ships_from") with
  | .error _ => none
  | .ok none => none
  | .ok (some element) =>
    match element.innerText with
    | .error _ => none
    | .ok t => some (pyStrip t)

/-- `extract_sold_by`. -/
def extract_sold_by (page : PPage) : Option String :=
  match page.query_selector (SELECTORS "sold_by") with
  | .error _ => none
  | .ok none => none
  | .ok (some element) =>
    match element.innerText with
    | .error _ => none
    | .ok t => some (pyStrip t)

/-- The `product_data` record built inside `scrape_amazon_product`. -/
def product_data_of (page : PPage) (url : String) : ProductData where
  title := extract_title page
  price := extract_price page
  avg_rating := extract_avg_rating page
  review_count := extract_review_count page
  availability := extract_availability page
  out_of_stock := extract_out_of_stock page
  description := extract_description page
  features := extract_features page
  images := extract_images page
  category := extract_category page
  ships_from := extract_ships_from page
  sold_by := extract_sold_by page
  url := url

end PW

/-! ## Per-field view of the record, for the isolation property -/

/-- The twelve extracted fields (`url` is the input, not an extraction). -/
inductive RecField where
  | title | price | avg_rating | review_count | availability | out_of_stock
  | description | features | images | category | ships_from | sold_by
deriving Repr, DecidableEq

/-- The value of one field of the record. -/
inductive FieldValue where
  | str : Option String → FieldValue
  | flag : Bool → FieldValue
  | strs : List String → FieldValue
deriving Repr, DecidableEq

/-- Project one field out of a record. -/
def getField (d : ProductData) : RecField → FieldValue
  | .title => .str d.title
  | .price => .str d.price
  | .avg_rating => .str d.avg_rating
  | .review_count => .str d.review_count
  | .availability => .str d.availability
  | .out_of_stock => .flag d.out_of_stock
  | .description => .str d.description
  | .features => .strs d.features
  | .images => .strs d.images
  | .category => .str d.category
  | .ships_from => .str d.ships_from
  | .sold_by => .str d.sold_by

/-- The selectors each field's extractor queries.  `out_of_stock` is
derived from the availability query; `images` also queries the thumbnail
strip. -/
def fieldSelectors : RecField → List String
  | .title => [SELECTORS "title"]
  | .price => [SELECTORS "price"]
  | .avg_rating => [SELECTORS "avg_rating"]
  | .review_count => [SELECTORS "review_count"]
  | .availability => [SELECTORS "availability"]
  | .out_of_stock => [SELECTORS "availability"]
  | .description => [SELECTORS "description"]
  | .features => [SELECTORS "features"]
  | .images => [SELECTORS "images", "#altImages img.a-dynamic-image"]
  | .category => [SELECTORS "category"]
  | .ships_from => [SELECTORS "ships_from"]
  | .sold_by => [SELECTORS "sold_by"]

/-- The degraded value a field takes when its extraction fails: `None`
for scalars, the empty list for sequences, `False` for the derived flag. -/
def defaultFor : RecField → FieldValue
  | .out_of_stock => .flag false
  | .features => .strs []
  | .images => .strs []
  | .title => .str none
  | .price => .str none
  | .avg_rating => .str none
  | .review_count => .str none
  | .availability => .str none
  | .description => .str none
  | .category => .str none
  | .ships_from => .str none
  | .sold_by => .str none

/-- Two pages agree on a set of selectors: same query results (elements
included) for each. -/
def agreeOn (p q : PPage) (ss : List String) : Prop :=
  ∀ s ∈ ss, p.query_selector s = q.query_selector s ∧
    p.query_selector_all s = q.query_selector_all s

/-- A single-element query failed: the backend raised, or nothing matched. -/
def q1Fails (p : PPage) (s : String) : Prop :=
  p.query_selector s = .error () ∨ p.query_selector s = .ok none

/-- A multi-element query failed: the backend raised, or nothing matched. -/
def qAllFails (p : PPage) (s : String) : Prop :=
  p.query_selector_all s = .error () ∨ p.query_selector_all s = .ok []

/-- A scalar text field's extraction failed: the query raised or matched
nothing, or the matched element's `inner_text` raised. -/
def scalarFails (p : PPage) (s : String) : Prop :=
  q1Fails p s ∨
    ∃ el, p.query_selector s = .ok (some el) ∧ el.innerText = .error ()

/-- The per-field failure modes of the claim: no element matched, a
missing attribute, an unmatched pattern, or a backend raise during that
field's query. -/
def fieldFails (p : PPage) : RecField → Prop
  | .title => scalarFails p (SELECTORS "title")
  | .price => scalarFails p (SELECTORS "price")
  | .avg_rating =>
    scalarFails p (SELECTORS "avg_rating") ∨
      ∃ el t, p.query_selector (SELECTORS "avg_rating") = .ok (some el) ∧
        el.innerText = .ok t ∧ reSearchRating (pyStrip t).data = none
  | .review_count =>
    scalarFails p (SELECTORS "review_count") ∨
      ∃ el t, p.query_selector (SELECTORS "review_count") = .ok (some el) ∧
        el.innerText = .ok t ∧ reSearchDigitGroup (pyStrip t).data = none
  | .availability => scalarFails p (SELECTORS "availability")
  | .out_of_stock => scalarFails p (SELECTORS "availability")
  | .description => scalarFails p (SELECTORS "description")
  | .features => qAllFails p (SELECTORS "features")
  | .images =>
    (q1Fails p (SELECTORS "images") ∨
      ∃ el, p.query_selector (SELECTORS "images") = .ok (some el) ∧
        el.getAttribute "data-old-hires" = .ok none ∧
        el.getAttribute "src" = .ok none) ∧
    qAllFails p "#altImages img.a-dynamic-image"
  | .category => qAllFails p (SELECTORS "category")
  | .ships_from => scalarFails p (SELECTORS "ships_from")
  | .sold_by => scalarFails p (SELECTORS "sold_by")


/-! ## Concrete documents used as witnesses -/

/-- A valid document in which no selector matches anything. -/
def emptySoup : Soup := ⟨fun _ => []⟩

/-- A page on which every query succeeds with no match. -/
def emptyPage : PPage := ⟨fun _ => .ok none, fun _ => .ok []⟩

/-- A document whose review-count element reads `"1,234 ratings"`. -/
def reviewSoup : Soup :=
  ⟨fun s => if s = "#acrCustomerReviewText" then [⟨"1,234 ratings", []⟩] else []⟩

/-- A document whose review-count element reads `","`. -/
def commaSoup : Soup :=
  ⟨fun s => if s = "#acrCustomerReviewText" then [⟨",", []⟩] else []⟩

/-- A document whose review-count element has no digit and no comma. -/
def noDigitSoup : Soup :=
  ⟨fun s => if s = "#acrCustomerReviewText" then [⟨"no count here", []⟩] else []⟩

/-- A document whose rating element reads `"4.5 out of 5 stars"`. -/
def ratingSoup : Soup :=
  ⟨fun s => if s = "span.a-icon-alt" then [⟨"4.5 out of 5 stars", []⟩] else []⟩

/-- A document whose rating element has no `out of` in its text. -/
def noRatingSoup : Soup :=
  ⟨fun s => if s = "span.a-icon-alt" then [⟨"five stars", []⟩] else []⟩

/-- A high-resolution main-image URL. -/
def hiResUrl : String := "https://m.example/hi.jpg"

/-- A thumbnail URL carrying a size token. -/
def thumbUrl : String := "https://m.example/th._SX38_.jpg"

/-- A document with a main image (high-res attribute) and one thumbnail. -/
def imagesSoup : Soup :=
  ⟨fun s =>
    if s = "#imgTagWrapperId img" then [⟨"", [("data-old-hires", hiResUrl)]⟩]
    else if s = "#altImages img.a-dynamic-image" then [⟨"", [("src", thumbUrl)]⟩]
    else []⟩

/-- A size token `._<uppercase letters><digits>_.` occurs contiguously
somewhere in the character list (the occurrence of the pattern
`\._[A-Z]+\d+_\.`, stated structurally). -/
def hasTokenList (l : List Char) : Prop :=
  ∃ pre U D suf,
    l = pre ++ '.' :: '_' :: (U ++ (D ++ '_' :: '.' :: suf)) ∧
    U ≠ [] ∧ (∀ c ∈ U, isUpperAZ c = true) ∧
    D ≠ [] ∧ (∀ c ∈ D, c.isDigit = true)

/-- A size token occurs in the string. -/
def hasSizeToken (s : String) : Prop := hasTokenList s.data

/-! ## Helper lemmas -/

/-- The feature fold appends exactly the long-enough normalized texts. -/
theorem featFoldl_eq (els : List Tag) (acc : List String) :
    els.foldl
      (fun features element =>
        let text := element.get_text_strip
        if text ≠ "" && text.length > 5 then features ++ [text] else features)
      acc
    = acc ++ (els.map (fun el => el.get_text_strip)).filter (fun t => t.length > 5) := by
  induction els generalizing acc with
  | nil => simp
  | cons e es ih =>
    rw [List.foldl_cons, ih]
    by_cases h6 : e.get_text_strip.length > 5
    · have hne : e.get_text_strip ≠ "" := by
        intro he
        rw [he] at h6
        simp at h6
      simp [h6, hne, List.append_assoc]
    · simp [h6]

/-! ## Claim theorems -/

/-- C3: for every document in which no selector matches any element,
extraction returns the fully-keyed record with every scalar field null,
both sequence fields empty, `out_of_stock` false, and `url` the input
address.  (The extractor is a total Lean function, so it cannot raise.) -/
theorem empty_document_record (soup : Soup) (url : String)
    (h : ∀ s, soup.sel s = []) :
    BS4.product_data_of soup url =
      { title := none, price := none, avg_rating := none, review_count := none,
        availability := none, out_of_stock := false, description := none,
        features := [], images := [], category := none, ships_from := none,
        sold_by := none, url := url } := by
  simp [BS4.product_data_of, BS4.extract_title, BS4.extract_price,
        BS4.extract_avg_rating, BS4.extract_review_count, BS4.extract_availability,
        BS4.extract_out_of_stock, BS4.extract_description, BS4.extract_features,
        BS4.extract_images, BS4.extract_category, BS4.extract_ships_from,
        BS4.extract_sold_by, select_one, h, BS4.thumbLoop]

/-- Witness for C3 at the concrete empty document. -/
theorem empty_document_record_witness :
    BS4.product_data_of emptySoup TARGET_URL =
      { title := none, price := none, avg_rating := none, review_count := none,
        availability := none, out_of_stock := false, description := none,
        features := [], images := [], category := none, ships_from := none,
        sold_by := none, url := TARGET_URL } :=
  empty_document_record emptySoup TARGET_URL (fun _ => rfl)

/-- C4: when page acquisition fails, no record is produced, an error
message is written to the error stream, and the process exits nonzero. -/
theorem acquisition_failure_no_record (fr : BS4.FetchResult)
    (h : ∀ soup, fr ≠ BS4.FetchResult.success soup) :
    (BS4.main_run fr).record = none ∧
    (BS4.main_run fr).stderrLines ≠ [] ∧
    (BS4.main_run fr).exitCode ≠ 0 := by
  cases fr with
  | success soup => exact absurd rfl (h soup)
  | timeout =>
    exact ⟨rfl, by simp [BS4.main_run, BS4.scrape_amazon_product, BS4.fetch_page], by decide⟩
  | connectionError =>
    exact ⟨rfl, by simp [BS4.main_run, BS4.scrape_amazon_product, BS4.fetch_page], by decide⟩
  | httpError e =>
    exact ⟨rfl, by simp [BS4.main_run, BS4.scrape_amazon_product, BS4.fetch_page], by simp [BS4.main_run, BS4.scrape_amazon_product, BS4.fetch_page]⟩
  | requestException e =>
    exact ⟨rfl, by simp [BS4.main_run, BS4.scrape_amazon_product, BS4.fetch_page], by simp [BS4.main_run, BS4.scrape_amazon_product, BS4.fetch_page]⟩

/-- Witness for C4 at a concrete timeout. -/
theorem acquisition_failure_no_record_witness :
    (BS4.main_run BS4.FetchResult.timeout).record = none ∧
    (BS4.main_run BS4.FetchResult.timeout).stderrLines ≠ [] ∧
    (BS4.main_run BS4.FetchResult.timeout).exitCode ≠ 0 :=
  acquisition_failure_no_record BS4.FetchResult.timeout
    (fun _ h => BS4.FetchResult.noConfusion h)

/-- C2: `out_of_stock` is true iff `availability` is non-null and its
lowercased text contains one of `"out of stock"`, `"unavailable"`,
`"currently unavailable"`; false otherwise, including null availability. -/
theorem out_of_stock_iff_availability (soup : Soup) :
    BS4.extract_out_of_stock soup = true ↔
      ∃ a, BS4.extract_availability soup = some a ∧
        (strContains (pyLower a) "out of stock" = true ∨
         strContains (pyLower a) "unavailable" = true ∨
         strContains (pyLower a) "currently unavailable" = true) := by
  unfold BS4.extract_out_of_stock
  cases h : BS4.extract_availability soup with
  | none => simp
  | some a =>
    by_cases ha : a = ""
    · subst ha
      constructor
      · intro hfalse
        simp at hfalse
      · rintro ⟨a, haa, hk⟩
        injection haa with haa
        subst haa
        revert hk
        decide
    · simp [ha, out_of_stock_keywords]

/-- C9: `features` is exactly the matched elements whose stripped text is
longer than 5 characters, in document order, without de-duplication. -/
theorem extract_features_eq_filter (soup : Soup) :
    BS4.extract_features soup =
      ((soup.sel (SELECTORS "features")).map (fun el => el.get_text_strip)).filter
        (fun t => t.length > 5) := by
  unfold BS4.extract_features
  simpa using featFoldl_eq (soup.sel (SELECTORS "features")) []

/-- A stripped string's characters are among the original's. -/
theorem mem_pyStripList {c : Char} {l : List Char} (h : c ∈ pyStripList l) : c ∈ l := by
  unfold pyStripList at h
  rw [List.mem_reverse] at h
  have h1 := (List.dropWhile_sublist isPySpace).subset h
  rw [List.mem_reverse] at h1
  exact (List.dropWhile_sublist isPySpace).subset h1

/-- A stripped string is a contiguous slice of the original. -/
theorem pyStripList_occurs (l : List Char) : pyStripList l <:+: l := by
  unfold pyStripList
  have h1 : l.dropWhile isPySpace <:+ l := List.dropWhile_suffix isPySpace
  have h2 : (l.dropWhile isPySpace).reverse.dropWhile isPySpace <:+
      (l.dropWhile isPySpace).reverse := List.dropWhile_suffix isPySpace
  have h3 : ((l.dropWhile isPySpace).reverse.dropWhile isPySpace).reverse <+:
      l.dropWhile isPySpace := by
    have := List.reverse_prefix.mpr h2
    simpa using this
  exact List.infix_iff_prefix_suffix.mpr ⟨l.dropWhile isPySpace, h3, h1⟩

/-- The digit-group search fails on text with no digit and no comma. -/
theorem reSearchDigitGroup_none {cs : List Char}
    (h : ∀ c ∈ cs, isDigitComma c = false) : reSearchDigitGroup cs = none := by
  induction cs with
  | nil => rfl
  | cons c rest ih =>
    unfold reSearchDigitGroup
    rw [h c (List.mem_cons_self c rest)]
    exact ih (fun d hd => h d (List.mem_cons_of_mem c hd))

/-- Every character of a successful digit-group capture is a digit or a
comma. -/
theorem reSearchDigitGroup_chars {cs g : List Char}
    (h : reSearchDigitGroup cs = some g) : ∀ c ∈ g, isDigitComma c = true := by
  induction cs with
  | nil => exact absurd h (by simp [reSearchDigitGroup])
  | cons c rest ih =>
    unfold reSearchDigitGroup at h
    by_cases hc : isDigitComma c = true
    · rw [if_pos hc] at h
      injection h with h
      subst h
      intro d hd
      exact List.mem_takeWhile_imp hd
    · rw [if_neg hc] at h
      exact ih h

/-- C6 as stated is false: the digit-group pattern can match a run of
commas only, and stripping the separators then leaves the empty string.
`commaSoup`'s review-count element reads `","`, and extraction returns
`some ""`, which is not a non-empty digit string. -/
theorem review_count_nonempty_cex :
    ¬ (∀ (soup : Soup) (r : String),
        BS4.extract_review_count soup = some r →
          r ≠ "" ∧ (∀ c ∈ r.data, c.isDigit = true)) :=
  fun h => ((h commaSoup "" (by decide)).1 rfl)

/-- C6 amended: whenever `review_count` is non-null it consists only of
decimal digits with no separator characters remaining (but it may be
empty, when the matched group was all commas). -/
theorem review_count_digits_only (soup : Soup) (r : String)
    (h : BS4.extract_review_count soup = some r) :
    ∀ c ∈ r.data, c.isDigit = true := by
  unfold BS4.extract_review_count at h
  cases hsel : select_one soup (SELECTORS "review_count") with
  | none =>
    rw [hsel] at h
    exact absurd h (by simp)
  | some element =>
    rw [hsel] at h
    dsimp only at h
    cases hg : reSearchDigitGroup element.get_text_strip.data with
    | none =>
      rw [hg] at h
      exact absurd h (by simp)
    | some g =>
      rw [hg] at h
      injection h with h
      subst h
      intro c hc
      have hmem : c ∈ g.filter (fun c => decide (c ≠ ',')) := by
        simpa [removeCommas] using hc
      have hsplit := List.mem_filter.mp hmem
      have hdc := reSearchDigitGroup_chars hg c hsplit.1
      have hne : c ≠ ',' := by simpa using hsplit.2
      simp only [isDigitComma, Bool.or_eq_true] at hdc
      rcases hdc with hd | hcomma
      · exact hd
      · exact absurd (by simpa using hcomma) hne

/-- Witness for the amended C6 at the `"1,234 ratings"` document. -/
theorem review_count_digits_only_witness :
    BS4.extract_review_count reviewSoup = some "1234" ∧
      ∀ c ∈ ("1234" : String).data, c.isDigit = true :=
  ⟨by decide, review_count_digits_only reviewSoup "1234" (by decide)⟩

/-- C7: review-count extraction on element text `"1,234 ratings"` yields
`"1234"`, and yields null whenever the element's text contains no digit
and no comma (the digit-group pattern cannot match). -/
theorem review_count_pattern_spec :
    BS4.extract_review_count reviewSoup = some "1234" ∧
    (∀ (soup : Soup) (el : Tag),
       select_one soup (SELECTORS "review_count") = some el →
       (∀ c ∈ el.text.data, isDigitComma c = false) →
       BS4.extract_review_count soup = none) := by
  constructor
  · decide
  · intro soup el hsel hnone
    unfold BS4.extract_review_count
    rw [hsel]
    have hstrip : ∀ c ∈ el.get_text_strip.data, isDigitComma c = false := by
      intro c hc
      exact hnone c (mem_pyStripList (by simpa [Tag.get_text_strip, pyStrip] using hc))
    dsimp only
    rw [reSearchDigitGroup_none hstrip]

/-- Witness for C7's null case at a digit-free document. -/
theorem review_count_pattern_spec_witness :
    BS4.extract_review_count noDigitSoup = none :=
  review_count_pattern_spec.2 noDigitSoup ⟨"no count here", []⟩ (by decide) (by decide)

/-- A successful rating-tail match means `out of` occurs in its input. -/
theorem ratingTail_occurs {d1 dot r2 g : List Char}
    (h : ratingTail d1 dot r2 = some g) : "out of".data <:+: r2 := by
  unfold ratingTail at h
  dsimp only at h
  split at h
  case isTrue hpre =>
    refine List.infix_iff_prefix_suffix.mpr
      ⟨(r2.drop (r2.takeWhile Char.isDigit).length).dropWhile isPySpace,
       List.isPrefixOf_iff_prefix.mp hpre, ?_⟩
    exact List.IsSuffix.trans (List.dropWhile_suffix isPySpace)
      (List.drop_suffix _ r2)
  case isFalse => exact absurd h (by simp)

/-- A successful rating match at a position means `out of` occurs there. -/
theorem ratingMatchAt_occurs {cs g : List Char}
    (h : ratingMatchAt cs = some g) : "out of".data <:+: cs := by
  unfold ratingMatchAt at h
  dsimp only at h
  split at h
  · exact absurd h (by simp)
  · split at h
    case _ t heq =>
      have h2 := ratingTail_occurs h
      have h3 : "out of".data <:+: cs.drop (cs.takeWhile Char.isDigit).length := by
        rw [heq]
        exact List.infix_cons h2
      exact h3.trans (List.drop_suffix _ cs).isInfix
    case _ =>
      exact (ratingTail_occurs h).trans (List.drop_suffix _ cs).isInfix

/-- A successful rating search means `out of` occurs in the text. -/
theorem reSearchRating_occurs {cs g : List Char}
    (h : reSearchRating cs = some g) : "out of".data <:+: cs := by
  induction cs with
  | nil => exact absurd h (by simp [reSearchRating])
  | cons c rest ih =>
    unfold reSearchRating at h
    cases hm : ratingMatchAt (c :: rest) with
    | some g2 => exact ratingMatchAt_occurs hm
    | none =>
      rw [hm] at h
      dsimp only at h
      exact List.infix_cons (ih h)

/-- `hasSub` decides contiguous-substring occurrence. -/
theorem hasSub_iff {needle hay : List Char} :
    hasSub needle hay = true ↔ needle <:+: hay := by
  induction hay with
  | nil => simp [hasSub, List.isEmpty_iff]
  | cons c rest ih =>
    simp [hasSub, Bool.or_eq_true, ih, List.infix_cons_iff,
          List.isPrefixOf_iff_prefix]

/-- C8: rating extraction on element text `"4.5 out of 5 stars"` yields
`"4.5"`, and yields null whenever the element's text does not contain
`"out of"` (so the pattern cannot match anywhere in it). -/
theorem avg_rating_pattern_spec :
    BS4.extract_avg_rating ratingSoup = some "4.5" ∧
    (∀ (soup : Soup) (el : Tag),
       select_one soup (SELECTORS "avg_rating") = some el →
       strContains el.text "out of" = false →
       BS4.extract_avg_rating soup = none) := by
  constructor
  · decide
  · intro soup el hsel hno
    unfold BS4.extract_avg_rating
    rw [hsel]
    dsimp only
    cases hg : reSearchRating el.get_text_strip.data with
    | none => rfl
    | some g =>
      exfalso
      have hinf : "out of".data <:+: el.text.data :=
        (reSearchRating_occurs hg).trans
          (by simpa [Tag.get_text_strip, pyStrip] using pyStripList_occurs el.text.data)
      have htrue : strContains el.text "out of" = true := hasSub_iff.mpr hinf
      rw [hno] at htrue
      exact Bool.noConfusion htrue

/-- Witness for C8's null case at a document with no `out of` text. -/
theorem avg_rating_pattern_spec_witness :
    BS4.extract_avg_rating noRatingSoup = none :=
  avg_rating_pattern_spec.2 noRatingSoup ⟨"five stars", []⟩ (by decide) (by decide)


/-- A head character other than `.` cannot start a size token. -/
theorem tokenMatchLen_ne_dot {c : Char} (hc : c ≠ '.') (l : List Char) :
    tokenMatchLen (c :: l) = none := by
  unfold tokenMatchLen
  simp [hc]

/-- One step of the substitution on a non-token head character. -/
theorem pysubAux_cons_of_none {c : Char} {l : List Char}
    (h : tokenMatchLen (c :: l) = none) : pysubAux (c :: l) = c :: pysubAux l := by
  rw [pysubAux, h]

/-- The rewrite cannot change the `http` prefix of a URL: a token starts
at a `.`, so the four leading characters are left untouched. -/
theorem pysubLarge_http {u : String} (h : pyStartsWith u "http" = true) :
    pyStartsWith (pysubLarge u) "http" = true := by
  unfold pyStartsWith at h ⊢
  obtain ⟨rest, hu⟩ := List.isPrefixOf_iff_prefix.mp h
  unfold pysubLarge
  rw [← hu]
  have hdata : "http".data = ['h', 't', 't', 'p'] := rfl
  rw [hdata]
  simp only [List.cons_append, List.nil_append]
  rw [pysubAux_cons_of_none (tokenMatchLen_ne_dot (by decide) _),
      pysubAux_cons_of_none (tokenMatchLen_ne_dot (by decide) _),
      pysubAux_cons_of_none (tokenMatchLen_ne_dot (by decide) _),
      pysubAux_cons_of_none (tokenMatchLen_ne_dot (by decide) _)]
  rw [List.isPrefixOf_iff_prefix]
  exact ⟨pysubAux rest, rfl⟩

/-- The thumbnail loop only ever appends to the list it is given. -/
theorem thumbLoop_extends (ts : List Tag) (images : List String) :
    ∃ extra, BS4.thumbLoop ts images = images ++ extra := by
  induction ts generalizing images with
  | nil => exact ⟨[], by simp [BS4.thumbLoop]⟩
  | cons thumb rest ih =>
    unfold BS4.thumbLoop
    split
    · rename_i u hu
      dsimp only
      split
      · split
        · exact ih images
        · obtain ⟨extra, he⟩ := ih (images ++ [pysubLarge u])
          exact ⟨pysubLarge u :: extra, by rw [he, List.append_assoc]; rfl⟩
      · exact ih images
    · exact ih images

/-- The thumbnail loop preserves distinctness and the `http` prefix of
every entry. -/
theorem thumbLoop_nodup_http (ts : List Tag) (images : List String)
    (hnd : images.Nodup) (hhttp : ∀ u ∈ images, pyStartsWith u "http" = true) :
    (BS4.thumbLoop ts images).Nodup ∧
      ∀ u ∈ BS4.thumbLoop ts images, pyStartsWith u "http" = true := by
  induction ts generalizing images with
  | nil =>
    unfold BS4.thumbLoop
    exact ⟨hnd, hhttp⟩
  | cons thumb rest ih =>
    unfold BS4.thumbLoop
    split
    · rename_i u hu
      dsimp only
      split
      case isTrue hcond =>
        split
        case isTrue => exact ih images hnd hhttp
        case isFalse hmem =>
          have hnotmem : pysubLarge u ∉ images := by
            intro hin
            apply hmem
            simp [hin]
          apply ih
          · simp [List.nodup_append, hnd, hnotmem]
          · intro v hv
            rcases List.mem_append.mp hv with hv | hv
            · exact hhttp v hv
            · obtain rfl : v = pysubLarge u := by simpa using hv
              have hc := hcond
              simp only [Bool.and_eq_true] at hc
              exact pysubLarge_http hc.2
      case isFalse => exact ih images hnd hhttp
    · exact ih images hnd hhttp

/-- C5: the extracted image list has no duplicates and contains only
`http`-prefixed absolute URLs; and the main image's high-resolution
attribute is preferred: when `data-old-hires` holds a truthy URL starting
with `http`, it is the first element of the list (thumbnail URLs are
appended after it only when not already present, first occurrence
winning, order preserved). -/
theorem extract_images_spec (soup : Soup) :
    (BS4.extract_images soup).Nodup ∧
    (∀ u ∈ BS4.extract_images soup, pyStartsWith u "http" = true) ∧
    (∀ (main_img : Tag) (v : String),
       select_one soup (SELECTORS "images") = some main_img →
       main_img.get "data-old-hires" = some v →
       v ≠ "" →
       pyStartsWith v "http" = true →
       (BS4.extract_images soup).head? = some v) := by
  have hmain : (BS4.extract_images soup).Nodup ∧
      ∀ u ∈ BS4.extract_images soup, pyStartsWith u "http" = true := by
    unfold BS4.extract_images
    dsimp only
    apply thumbLoop_nodup_http
    · split
      · split
        · split
          case isTrue => simp
          case isFalse => simp
        · simp
      · simp
    · split
      · split
        · split
          case isTrue hcond =>
            intro v hv
            obtain rfl : v = _ := by simpa using hv
            simp only [Bool.and_eq_true] at hcond
            exact hcond.2
          case isFalse => simp
        · simp
      · simp
  refine ⟨hmain.1, hmain.2, ?_⟩
  intro main_img v hsel hattr hne hhttp
  unfold BS4.extract_images
  rw [hsel]
  dsimp only
  rw [hattr]
  unfold pyOrStr
  dsimp only
  rw [if_pos hne]
  dsimp only
  have hcond : (v ≠ "" && pyStartsWith v "http") = true := by
    simp [hne, hhttp]
  rw [if_pos hcond]
  obtain ⟨extra, he⟩ :=
    thumbLoop_extends (soup.sel "#altImages img.a-dynamic-image") ([] ++ [v])
  rw [he]
  simp

/-- Witness for C5's main-image preference at a concrete document. -/
theorem extract_images_spec_witness :
    (BS4.extract_images imagesSoup).head? = some hiResUrl :=
  (extract_images_spec imagesSoup).2.2 ⟨"", [("data-old-hires", hiResUrl)]⟩ hiResUrl
    (by decide) (by decide) (by decide) (by decide)

/-- An ASCII digit is not an uppercase letter. -/
theorem isUpperAZ_eq_false_of_digit {c : Char} (h : c.isDigit = true) :
    isUpperAZ c = false := by
  simp [Char.isDigit] at h
  simp [isUpperAZ]
  intro h1
  exact absurd (UInt32.le_trans (Char.le_def.mp h1) h.2) (by decide)

/-- Dropping the length of the maximal satisfying run is `dropWhile`. -/
theorem drop_takeWhile_length (p : Char → Bool) (l : List Char) :
    l.drop (l.takeWhile p).length = l.dropWhile p := by
  induction l with
  | nil => rfl
  | cons c rest ih =>
    by_cases hc : p c = true
    · simp [List.takeWhile_cons, List.dropWhile_cons, hc, ih]
    · simp [List.takeWhile_cons, List.dropWhile_cons, hc]

/-- The maximal run of an all-satisfying block followed by a stopper is
exactly the block. -/
theorem takeWhile_all_stop (p : Char → Bool) (rest : List Char)
    (hstop : ∀ b bs, rest = b :: bs → p b = false) :
    ∀ U : List Char, (∀ c ∈ U, p c = true) →
      (U ++ rest).takeWhile p = U ∧ (U ++ rest).dropWhile p = rest := by
  intro U
  induction U with
  | nil =>
    intro _
    cases rest with
    | nil => simp
    | cons b bs =>
      have hb := hstop b bs rfl
      simp [List.takeWhile_cons, List.dropWhile_cons, hb]
  | cons u U' ih =>
    intro hU
    have hu : p u = true := hU u (by simp)
    have ih' := ih (fun c hc => hU c (by simp [hc]))
    simp [List.takeWhile_cons, List.dropWhile_cons, hu, ih'.1, ih'.2]

/-- A successful token-body match decomposes its input as
`<uppercase>+ <digit>+ '_' '.' suffix`. -/
theorem tokenBody_some {rest : List Char} {n : Nat} (h : tokenBody rest = some n) :
    ∃ U D suf, rest = U ++ (D ++ '_' :: '.' :: suf) ∧ U ≠ [] ∧
      (∀ c ∈ U, isUpperAZ c = true) ∧ D ≠ [] ∧ (∀ c ∈ D, c.isDigit = true) := by
  unfold tokenBody at h
  dsimp only at h
  split at h
  · exact absurd h (by simp)
  case isFalse hus =>
    split at h
    · exact absurd h (by simp)
    case isFalse hds =>
      split at h
      case _ c3 c4 tail heq =>
        split at h
        case isTrue hif =>
          simp only [Bool.and_eq_true, decide_eq_true_eq] at hif
          obtain ⟨rfl, rfl⟩ := hif
          refine ⟨rest.takeWhile isUpperAZ,
                  (rest.drop (rest.takeWhile isUpperAZ).length).takeWhile Char.isDigit,
                  tail, ?_, ?_, ?_, ?_, ?_⟩
          · conv_lhs => rw [← List.takeWhile_append_dropWhile (p := isUpperAZ) (l := rest)]
            congr 1
            rw [← drop_takeWhile_length isUpperAZ rest]
            conv_lhs =>
              rw [← List.takeWhile_append_dropWhile (p := Char.isDigit)
                    (l := rest.drop (rest.takeWhile isUpperAZ).length)]
            congr 1
            rw [← drop_takeWhile_length Char.isDigit
                  (rest.drop (rest.takeWhile isUpperAZ).length)]
            exact heq
          · intro he
            exact hus (by rw [he]; rfl)
          · intro c hc
            exact List.mem_takeWhile_imp hc
          · intro he
            exact hds (by rw [he]; rfl)
          · intro c hc
            exact List.mem_takeWhile_imp hc
        case isFalse => exact absurd h (by simp)
      case _ => exact absurd h (by simp)

/-- Converse: a well-formed token body is matched. -/
theorem tokenBody_of_parts {U D suf : List Char}
    (hU : U ≠ []) (hUall : ∀ c ∈ U, isUpperAZ c = true)
    (hD : D ≠ []) (hDall : ∀ c ∈ D, c.isDigit = true) :
    ∃ n, tokenBody (U ++ (D ++ '_' :: '.' :: suf)) = some n := by
  obtain ⟨d, D', rfl⟩ : ∃ d D', D = d :: D' := by
    cases D with
    | nil => exact absurd rfl hD
    | cons d D' => exact ⟨d, D', rfl⟩
  have hd : d.isDigit = true := hDall d (by simp)
  have hsplit := takeWhile_all_stop isUpperAZ ((d :: D') ++ '_' :: '.' :: suf)
    (fun b bs hb => by
      rw [List.cons_append] at hb
      injection hb with h1 _
      rw [← h1]
      exact isUpperAZ_eq_false_of_digit hd)
    U hUall
  have hsplit2 := takeWhile_all_stop Char.isDigit ('_' :: '.' :: suf)
    (fun b bs hb => by
      injection hb with h1 _
      rw [← h1]
      decide)
    (d :: D') (fun c hc => hDall c hc)
  unfold tokenBody
  dsimp only
  rw [hsplit.1]
  rw [if_neg (by simp [hU])]
  rw [List.drop_left, hsplit2.1]
  rw [if_neg (by simp)]
  rw [List.drop_left]
  simp

/-- A successful token match at the head decomposes the list as
`'.' '_' <uppercase>+ <digit>+ '_' '.' suffix`. -/
theorem tokenMatchLen_some {cs : List Char} {n : Nat}
    (h : tokenMatchLen cs = some n) :
    ∃ U D suf, cs = '.' :: '_' :: (U ++ (D ++ '_' :: '.' :: suf)) ∧ U ≠ [] ∧
      (∀ c ∈ U, isUpperAZ c = true) ∧ D ≠ [] ∧ (∀ c ∈ D, c.isDigit = true) := by
  cases cs with
  | nil => exact absurd h (by simp [tokenMatchLen])
  | cons c rest =>
    unfold tokenMatchLen at h
    dsimp only at h
    split at h
    case isTrue hc =>
      subst hc
      cases rest with
      | nil => exact absurd h (by simp)
      | cons c2 rest2 =>
        dsimp only at h
        split at h
        case isTrue hc2 =>
          subst hc2
          obtain ⟨U, D, suf, heq, hU, hUall, hD, hDall⟩ := tokenBody_some h
          exact ⟨U, D, suf, by rw [heq], hU, hUall, hD, hDall⟩
        case isFalse => exact absurd h (by simp)
    case isFalse => exact absurd h (by simp)

/-- Converse: a well-formed token at the head is matched. -/
theorem tokenMatchLen_of_parts {U D suf : List Char}
    (hU : U ≠ []) (hUall : ∀ c ∈ U, isUpperAZ c = true)
    (hD : D ≠ []) (hDall : ∀ c ∈ D, c.isDigit = true) :
    ∃ n, tokenMatchLen ('.' :: '_' :: (U ++ (D ++ '_' :: '.' :: suf))) = some n := by
  obtain ⟨n, hn⟩ := @tokenBody_of_parts U D suf hU hUall hD hDall
  refine ⟨n, ?_⟩
  unfold tokenMatchLen
  simp [hn]

/-- When no size token occurs anywhere, the substitution is the identity. -/
theorem pysubAux_id_of_no_token {l : List Char} (h : ¬ hasTokenList l) :
    pysubAux l = l := by
  induction l with
  | nil => rw [pysubAux]
  | cons c rest ih =>
    have hnone : tokenMatchLen (c :: rest) = none := by
      cases htm : tokenMatchLen (c :: rest) with
      | none => rfl
      | some n =>
        exfalso
        obtain ⟨U, D, suf, heq, hU, hUall, hD, hDall⟩ := tokenMatchLen_some htm
        exact h ⟨[], U, D, suf, by rw [heq]; rfl, hU, hUall, hD, hDall⟩
    rw [pysubAux_cons_of_none hnone]
    have hrest : ¬ hasTokenList rest := by
      rintro ⟨pre, U, D, suf, heq, hU, hUall, hD, hDall⟩
      exact h ⟨c :: pre, U, D, suf, by rw [List.cons_append, heq], hU, hUall, hD, hDall⟩
    rw [ih hrest]

/-- When a size token occurs, the replacement text appears in the output. -/
theorem pysubAux_rep_occurs {l : List Char} (h : hasTokenList l) :
    "._AC_SL1500_.".data <:+: pysubAux l := by
  induction l with
  | nil =>
    exfalso
    obtain ⟨pre, U, D, suf, heq, _, _, _, _⟩ := h
    cases pre <;> simp at heq
  | cons c rest ih =>
    cases htm : tokenMatchLen (c :: rest) with
    | some n =>
      rw [pysubAux, htm]
      exact (List.prefix_append _ _).isInfix
    | none =>
      rw [pysubAux_cons_of_none htm]
      obtain ⟨pre, U, D, suf, heq, hU, hUall, hD, hDall⟩ := h
      cases pre with
      | nil =>
        exfalso
        simp only [List.nil_append] at heq
        obtain ⟨m, hm⟩ := @tokenMatchLen_of_parts U D suf hU hUall hD hDall
        rw [heq] at htm
        rw [hm] at htm
        exact Option.noConfusion htm
      | cons p pre' =>
        rw [List.cons_append] at heq
        injection heq with h1 h2
        exact List.infix_cons (ih ⟨pre', U, D, suf, h2, hU, hUall, hD, hDall⟩)

/-- C10: the thumbnail size-suffix rewrite is the identity on any URL
containing no `._<UPPERCASE><digits>_.` token (such a URL goes through
unchanged, still thumbnail-sized), and when such a token occurs the
replacement `._AC_SL1500_.` appears in the rewritten URL. -/
theorem thumbnail_rewrite_spec (s : String) :
    (¬ hasSizeToken s → pysubLarge s = s) ∧
    (hasSizeToken s → "._AC_SL1500_.".data <:+: (pysubLarge s).data) := by
  constructor
  · intro h
    unfold pysubLarge
    rw [pysubAux_id_of_no_token h]
  · intro h
    exact pysubAux_rep_occurs h

/-- Witness for C10's replacement case at a concrete thumbnail URL. -/
theorem thumbnail_rewrite_spec_witness :
    "._AC_SL1500_.".data <:+: (pysubLarge thumbUrl).data :=
  (thumbnail_rewrite_spec thumbUrl).2
    ⟨"https://m.example/th".data, ['S', 'X'], ['3', '8'], "jpg".data,
     by decide, by decide, by decide, by decide, by decide⟩

/-- `extract_title` depends only on its own query. -/
theorem pw_title_congr {p q : PPage}
    (h : p.query_selector (SELECTORS "title") = q.query_selector (SELECTORS "title")) :
    PW.extract_title p = PW.extract_title q := by
  unfold PW.extract_title
  rw [h]

/-- `extract_price` depends only on its own query. -/
theorem pw_price_congr {p q : PPage}
    (h : p.query_selector (SELECTORS "price") = q.query_selector (SELECTORS "price")) :
    PW.extract_price p = PW.extract_price q := by
  unfold PW.extract_price
  rw [h]

/-- `extract_avg_rating` depends only on its own query. -/
theorem pw_avg_rating_congr {p q : PPage}
    (h : p.query_selector (SELECTORS "avg_rating") = q.query_selector (SELECTORS "avg_rating")) :
    PW.extract_avg_rating p = PW.extract_avg_rating q := by
  unfold PW.extract_avg_rating
  rw [h]

/-- `extract_review_count` depends only on its own query. -/
theorem pw_review_count_congr {p q : PPage}
    (h : p.query_selector (SELECTORS "review_count") = q.query_selector (SELECTORS "review_count")) :
    PW.extract_review_count p = PW.extract_review_count q := by
  unfold PW.extract_review_count
  rw [h]

/-- `extract_availability` depends only on its own query. -/
theorem pw_availability_congr {p q : PPage}
    (h : p.query_selector (SELECTORS "availability") = q.query_selector (SELECTORS "availability")) :
    PW.extract_availability p = PW.extract_availability q := by
  unfold PW.extract_availability
  rw [h]

/-- `extract_out_of_stock` depends only on the availability query. -/
theorem pw_out_of_stock_congr {p q : PPage}
    (h : p.query_selector (SELECTORS "availability") = q.query_selector (SELECTORS "availability")) :
    PW.extract_out_of_stock p = PW.extract_out_of_stock q := by
  unfold PW.extract_out_of_stock
  rw [pw_availability_congr h]

/-- `extract_description` depends only on its own query. -/
theorem pw_description_congr {p q : PPage}
    (h : p.query_selector (SELECTORS "description") = q.query_selector (SELECTORS "description")) :
    PW.extract_description p = PW.extract_description q := by
  unfold PW.extract_description
  rw [h]

/-- `extract_features` depends only on its own query. -/
theorem pw_features_congr {p q : PPage}
    (h : p.query_selector_all (SELECTORS "features") = q.query_selector_all (SELECTORS "features")) :
    PW.extract_features p = PW.extract_features q := by
  unfold PW.extract_features
  rw [h]

/-- `extract_images` depends only on its two queries. -/
theorem pw_images_congr {p q : PPage}
    (h1 : p.query_selector (SELECTORS "images") = q.query_selector (SELECTORS "images"))
    (h2 : p.query_selector_all "#altImages img.a-dynamic-image" =
      q.query_selector_all "#altImages img.a-dynamic-image") :
    PW.extract_images p = PW.extract_images q := by
  unfold PW.extract_images
  rw [h1, h2]

/-- `extract_category` depends only on its own query. -/
theorem pw_category_congr {p q : PPage}
    (h : p.query_selector_all (SELECTORS "category") = q.query_selector_all (SELECTORS "category")) :
    PW.extract_category p = PW.extract_category q := by
  unfold PW.extract_category
  rw [h]

/-- `extract_ships_from` depends only on its own query. -/
theorem pw_ships_from_congr {p q : PPage}
    (h : p.query_selector (SELECTORS "ships_from") = q.query_selector (SELECTORS "ships_from")) :
    PW.extract_ships_from p = PW.extract_ships_from q := by
  unfold PW.extract_ships_from
  rw [h]

/-- `extract_sold_by` depends only on its own query. -/
theorem pw_sold_by_congr {p q : PPage}
    (h : p.query_selector (SELECTORS "sold_by") = q.query_selector (SELECTORS "sold_by")) :
    PW.extract_sold_by p = PW.extract_sold_by q := by
  unfold PW.extract_sold_by
  rw [h]

/-- A failed scalar query degrades `extract_title` to `None`. -/
theorem pw_title_default {p : PPage} (h : scalarFails p (SELECTORS "title")) :
    PW.extract_title p = none := by
  unfold PW.extract_title
  rcases h with (h | h) | ⟨el, hel, htext⟩
  · rw [h]
  · rw [h]
  · rw [hel]
    dsimp only
    rw [htext]

/-- A failed scalar query degrades `extract_price` to `None`. -/
theorem pw_price_default {p : PPage} (h : scalarFails p (SELECTORS "price")) :
    PW.extract_price p = none := by
  unfold PW.extract_price
  rcases h with (h | h) | ⟨el, hel, htext⟩
  · rw [h]
  · rw [h]
  · rw [hel]
    dsimp only
    rw [htext]

/-- A failed query, raise, or unmatched pattern degrades
`extract_avg_rating` to `None`. -/
theorem pw_avg_rating_default {p : PPage}
    (h : scalarFails p (SELECTORS "avg_rating") ∨
      ∃ el t, p.query_selector (SELECTORS "avg_rating") = .ok (some el) ∧
        el.innerText = .ok t ∧ reSearchRating (pyStrip t).data = none) :
    PW.extract_avg_rating p = none := by
  unfold PW.extract_avg_rating
  rcases h with ((h | h) | ⟨el, hel, htext⟩) | ⟨el, t, hel, htext, hre⟩
  · rw [h]
  · rw [h]
  · rw [hel]
    dsimp only
    rw [htext]
  · rw [hel]
    dsimp only
    rw [htext]
    dsimp only
    rw [hre]

/-- A failed query, raise, or unmatched pattern degrades
`extract_review_count` to `None`. -/
theorem pw_review_count_default {p : PPage}
    (h : scalarFails p (SELECTORS "review_count") ∨
      ∃ el t, p.query_selector (SELECTORS "review_count") = .ok (some el) ∧
        el.innerText = .ok t ∧ reSearchDigitGroup (pyStrip t).data = none) :
    PW.extract_review_count p = none := by
  unfold PW.extract_review_count
  rcases h with ((h | h) | ⟨el, hel, htext⟩) | ⟨el, t, hel, htext, hre⟩
  · rw [h]
  · rw [h]
  · rw [hel]
    dsimp only
    rw [htext]
  · rw [hel]
    dsimp only
    rw [htext]
    dsimp only
    rw [hre]

/-- A failed scalar query degrades `extract_availability` to `None`. -/
theorem pw_availability_default {p : PPage} (h : scalarFails p (SELECTORS "availability")) :
    PW.extract_availability p = none := by
  unfold PW.extract_availability
  rcases h with (h | h) | ⟨el, hel, htext⟩
  · rw [h]
  · rw [h]
  · rw [hel]
    dsimp only
    rw [htext]

/-- A failed availability query degrades `extract_out_of_stock` to `False`. -/
theorem pw_out_of_stock_default {p : PPage} (h : scalarFails p (SELECTORS "availability")) :
    PW.extract_out_of_stock p = false := by
  unfold PW.extract_out_of_stock
  rw [pw_availability_default h]

/-- A failed scalar query degrades `extract_description` to `None`. -/
theorem pw_description_default {p : PPage} (h : scalarFails p (SELECTORS "description")) :
    PW.extract_description p = none := by
  unfold PW.extract_description
  rcases h with (h | h) | ⟨el, hel, htext⟩
  · rw [h]
  · rw [h]
  · rw [hel]
    dsimp only
    rw [htext]

/-- A failed multi-element query degrades `extract_features` to `[]`. -/
theorem pw_features_default {p : PPage} (h : qAllFails p (SELECTORS "features")) :
    PW.extract_features p = [] := by
  unfold PW.extract_features
  rcases h with h | h
  · rw [h]
  · rw [h]
    rfl

/-- Failures in both image stages degrade `extract_images` to `[]`. -/
theorem pw_images_default {p : PPage}
    (h : (q1Fails p (SELECTORS "images") ∨
      ∃ el, p.query_selector (SELECTORS "images") = .ok (some el) ∧
        el.getAttribute "data-old-hires" = .ok none ∧
        el.getAttribute "src" = .ok none) ∧
      qAllFails p "#altImages img.a-dynamic-image") :
    PW.extract_images p = [] := by
  unfold PW.extract_images
  obtain ⟨hmain, hthumb⟩ := h
  rcases hmain with (h | h) | ⟨el, hel, hh, hs⟩
  · rw [h]
  · rcases hthumb with ht | ht
    · simp [h, ht]
    · simp [h, ht, PW.pwThumbLoop]
  · rcases hthumb with ht | ht
    · simp [hel, hh, hs, pyTruthyStr, ht]
    · simp [hel, hh, hs, pyTruthyStr, ht, PW.pwThumbLoop]

/-- A failed multi-element query degrades `extract_category` to `None`. -/
theorem pw_category_default {p : PPage} (h : qAllFails p (SELECTORS "category")) :
    PW.extract_category p = none := by
  unfold PW.extract_category
  rcases h with h | h
  · rw [h]
  · rw [h]
    rfl

/-- A failed scalar query degrades `extract_ships_from` to `None`. -/
theorem pw_ships_from_default {p : PPage} (h : scalarFails p (SELECTORS "ships_from")) :
    PW.extract_ships_from p = none := by
  unfold PW.extract_ships_from
  rcases h with (h | h) | ⟨el, hel, htext⟩
  · rw [h]
  · rw [h]
  · rw [hel]
    dsimp only
    rw [htext]

/-- A failed scalar query degrades `extract_sold_by` to `None`. -/
theorem pw_sold_by_default {p : PPage} (h : scalarFails p (SELECTORS "sold_by")) :
    PW.extract_sold_by p = none := by
  unfold PW.extract_sold_by
  rcases h with (h | h) | ⟨el, hel, htext⟩
  · rw [h]
  · rw [h]
  · rw [hel]
    dsimp only
    rw [htext]

/-- C1: per-field isolation of the extractor.  For every field: (a) when
that field's own queries fail — no element matched, a backend raise during
the query or the element access, a missing attribute, or an unmatched
pattern — the field degrades to its null/empty/false default; (b) the
field's extracted value depends only on the query results for that field's
own selectors, so changing (or failing) any other field's queries leaves
it unchanged, and it is independent of the page URL.  The extractor is a
total Lean function of the page, which models the source's catch-all
`except` handlers: it never propagates an exception to its caller. -/
theorem pw_field_isolation (f : RecField) (p q : PPage) (u v : String) :
    (fieldFails p f → getField (PW.product_data_of p u) f = defaultFor f) ∧
    (agreeOn p q (fieldSelectors f) →
      getField (PW.product_data_of p u) f = getField (PW.product_data_of q v) f) := by
  cases f with
  | title =>
    refine ⟨fun h => ?_, fun h => ?_⟩
    · show FieldValue.str (PW.extract_title p) = FieldValue.str none
      rw [pw_title_default h]
    · obtain ⟨h1, _⟩ := h (SELECTORS "title") (by simp [fieldSelectors])
      show FieldValue.str (PW.extract_title p) = FieldValue.str (PW.extract_title q)
      rw [pw_title_congr h1]
  | price =>
    refine ⟨fun h => ?_, fun h => ?_⟩
    · show FieldValue.str (PW.extract_price p) = FieldValue.str none
      rw [pw_price_default h]
    · obtain ⟨h1, _⟩ := h (SELECTORS "price") (by simp [fieldSelectors])
      show FieldValue.str (PW.extract_price p) = FieldValue.str (PW.extract_price q)
      rw [pw_price_congr h1]
  | avg_rating =>
    refine ⟨fun h => ?_, fun h => ?_⟩
    · show FieldValue.str (PW.extract_avg_rating p) = FieldValue.str none
      rw [pw_avg_rating_default h]
    · obtain ⟨h1, _⟩ := h (SELECTORS "avg_rating") (by simp [fieldSelectors])
      show FieldValue.str (PW.extract_avg_rating p) = FieldValue.str (PW.extract_avg_rating q)
      rw [pw_avg_rating_congr h1]
  | review_count =>
    refine ⟨fun h => ?_, fun h => ?_⟩
    · show FieldValue.str (PW.extract_review_count p) = FieldValue.str none
      rw [pw_review_count_default h]
    · obtain ⟨h1, _⟩ := h (SELECTORS "review_count") (by simp [fieldSelectors])
      show FieldValue.str (PW.extract_review_count p) = FieldValue.str (PW.extract_review_count q)
      rw [pw_review_count_congr h1]
  | availability =>
    refine ⟨fun h => ?_, fun h => ?_⟩
    · show FieldValue.str (PW.extract_availability p) = FieldValue.str none
      rw [pw_availability_default h]
    · obtain ⟨h1, _⟩ := h (SELECTORS "availability") (by simp [fieldSelectors])
      show FieldValue.str (PW.extract_availability p) = FieldValue.str (PW.extract_availability q)
      rw [pw_availability_congr h1]
  | out_of_stock =>
    refine ⟨fun h => ?_, fun h => ?_⟩
    · show FieldValue.flag (PW.extract_out_of_stock p) = FieldValue.flag false
      rw [pw_out_of_stock_default h]
    · obtain ⟨h1, _⟩ := h (SELECTORS "availability") (by simp [fieldSelectors])
      show FieldValue.flag (PW.extract_out_of_stock p) = FieldValue.flag (PW.extract_out_of_stock q)
      rw [pw_out_of_stock_congr h1]
  | description =>
    refine ⟨fun h => ?_, fun h => ?_⟩
    · show FieldValue.str (PW.extract_description p) = FieldValue.str none
      rw [pw_description_default h]
    · obtain ⟨h1, _⟩ := h (SELECTORS "description") (by simp [fieldSelectors])
      show FieldValue.str (PW.extract_description p) = FieldValue.str (PW.extract_description q)
      rw [pw_description_congr h1]
  | features =>
    refine ⟨fun h => ?_, fun h => ?_⟩
    · show FieldValue.strs (PW.extract_features p) = FieldValue.strs []
      rw [pw_features_default h]
    · obtain ⟨_, h2⟩ := h (SELECTORS "features") (by simp [fieldSelectors])
      show FieldValue.strs (PW.extract_features p) = FieldValue.strs (PW.extract_features q)
      rw [pw_features_congr h2]
  | images =>
    refine ⟨fun h => ?_, fun h => ?_⟩
    · show FieldValue.strs (PW.extract_images p) = FieldValue.strs []
      rw [pw_images_default h]
    · obtain ⟨h1, _⟩ := h (SELECTORS "images") (by simp [fieldSelectors])
      obtain ⟨_, h2⟩ := h "#altImages img.a-dynamic-image" (by simp [fieldSelectors])
      show FieldValue.strs (PW.extract_images p) = FieldValue.strs (PW.extract_images q)
      rw [pw_images_congr h1 h2]
  | category =>
    refine ⟨fun h => ?_, fun h => ?_⟩
    · show FieldValue.str (PW.extract_category p) = FieldValue.str none
      rw [pw_category_default h]
    · obtain ⟨_, h2⟩ := h (SELECTORS "category") (by simp [fieldSelectors])
      show FieldValue.str (PW.extract_category p) = FieldValue.str (PW.extract_category q)
      rw [pw_category_congr h2]
  | ships_from =>
    refine ⟨fun h => ?_, fun h => ?_⟩
    · show FieldValue.str (PW.extract_ships_from p) = FieldValue.str none
      rw [pw_ships_from_default h]
    · obtain ⟨h1, _⟩ := h (SELECTORS "ships_from") (by simp [fieldSelectors])
      show FieldValue.str (PW.extract_ships_from p) = FieldValue.str (PW.extract_ships_from q)
      rw [pw_ships_from_congr h1]
  | sold_by =>
    refine ⟨fun h => ?_, fun h => ?_⟩
    · show FieldValue.str (PW.extract_sold_by p) = FieldValue.str none
      rw [pw_sold_by_default h]
    · obtain ⟨h1, _⟩ := h (SELECTORS "sold_by") (by simp [fieldSelectors])
      show FieldValue.str (PW.extract_sold_by p) = FieldValue.str (PW.extract_sold_by q)
      rw [pw_sold_by_congr h1]

/-- Witness for C1 at the empty page: the title query matches nothing and
the field degrades to null. -/
theorem pw_field_isolation_witness :
    fieldFails emptyPage RecField.title ∧
      getField (PW.product_data_of emptyPage TARGET_URL) RecField.title =
        defaultFor RecField.title :=
  ⟨Or.inl (Or.inr rfl),
   (pw_field_isolation RecField.title emptyPage emptyPage TARGET_URL TARGET_URL).1
     (Or.inl (Or.inr rfl))⟩
